import Mathlib

/-!
Verification development for a git-notes annotation store.

The Go sources are shallowly embedded: the external backend (the git
binary) is modelled as a deterministic oracle mapping an argument list to
a raw result (stdout, stderr, exit code), and every library operation is
a pure Lean function over that oracle which also returns the list of
backend invocations it performed, in order.  String handling mirrors the
Go standard library functions used by the source (strings.Contains,
strings.Fields, strings.TrimSpace, strings.ToLower, bufio.Scanner line
splitting, strconv.ParseInt), implemented over character lists so that
all definitions are kernel-executable.  Go byte lengths of strings are
modelled by summing UTF-8 sizes of the characters.
-/

namespace GitNotes

/-- A single backend command line (the argument vector after the program name). -/
abbrev Cmd := List String

/-- The trace of backend invocations an operation performed, in order. -/
abbrev Trace := List Cmd

/-- Raw outcome of one backend invocation: stdout, stderr and the exit code
(0 means success), as captured by executeGitCommand before any formatting. -/
structure GitResult where
  stdout : String
  stderr : String
  exitCode : Nat
deriving DecidableEq

/-- The backend oracle: a deterministic map from an argument vector to the
raw result of running git with those arguments. -/
abbrev GitExec := Cmd → GitResult

/- ---------------------------------------------------------------------
Go string primitives, over character lists (kernel-executable).
--------------------------------------------------------------------- -/

/-- Character-list version of strings.HasPrefix: pat is an initial segment. -/
def listStartsWith : List Char → List Char → Bool
  | _, [] => true
  | [], _ :: _ => false
  | a :: s, b :: p => a == b && listStartsWith s p

/-- Character-list version of strings.Contains: pat occurs contiguously. -/
def listHasSeg : List Char → List Char → Bool
  | [], pat => pat.isEmpty
  | c :: s, pat => listStartsWith (c :: s) pat || listHasSeg s pat

/-- strings.Contains(s, pat). -/
def strContains (s pat : String) : Bool :=
  listHasSeg s.data pat.data

/-- strings.HasPrefix(s, pre). -/
def strHasPre (s pre : String) : Bool :=
  listStartsWith s.data pre.data

/-- strings.TrimPrefix(s, pre): drop pre when it is a prefix, else identity. -/
def strTrimPre (s pre : String) : String :=
  if strHasPre s pre then String.mk (s.data.drop pre.data.length) else s

/-- strings.ToLower (ASCII case folding, as used by the source patterns). -/
def strToLower (s : String) : String :=
  String.mk (s.data.map Char.toLower)

/-- strings.TrimSpace: drop leading and trailing whitespace. -/
def goTrim (s : String) : String :=
  String.mk (((s.data.dropWhile Char.isWhitespace).reverse.dropWhile Char.isWhitespace).reverse)

/-- Go len(s): the UTF-8 byte length of a string. -/
def goLen (s : String) : Nat :=
  (s.data.map Char.utf8Size).sum

/-- Splitting a character list on one separator character, keeping empty
segments (the behaviour of strings.Split). -/
def splitOnChar (c : Char) : List Char → List (List Char)
  | [] => [[]]
  | a :: rest =>
    let r := splitOnChar c rest
    if a == c then [] :: r
    else
      match r with
      | h :: t => (a :: h) :: t
      | [] => [[a]]

/-- Strip one trailing carriage return, as bufio.ScanLines does. -/
def dropCR (l : List Char) : List Char :=
  if l.getLast? == some '\r' then l.dropLast else l

/-- bufio.Scanner line splitting: split on newline, no empty final token
after a trailing newline, empty input yields no lines. -/
def goLines (s : String) : List String :=
  let segs := splitOnChar '\n' s.data
  let segs := if segs.getLast? == some [] then segs.dropLast else segs
  segs.map (fun l => String.mk (dropCR l))

/-- Accumulator loop for strings.Fields: split on whitespace runs, dropping
empty fields; cur holds the current field reversed. -/
def fieldsAux : List Char → List Char → List (List Char)
  | [], cur => if cur.isEmpty then [] else [cur.reverse]
  | c :: rest, cur =>
    if c.isWhitespace then
      if cur.isEmpty then fieldsAux rest [] else cur.reverse :: fieldsAux rest []
    else fieldsAux rest (c :: cur)

/-- strings.Fields(s): whitespace-separated fields. -/
def goFields (s : String) : List String :=
  (fieldsAux s.data []).map String.mk

/-- Digit accumulation for strconv.ParseInt (base 10). -/
def natOfDigits : List Char → Option Nat
  | [] => none
  | l => l.foldl (fun acc c => acc.bind fun n =>
      if c.isDigit then some (n * 10 + (c.toNat - 48)) else none) (some 0)

/-- strconv.ParseInt(s, 10, 64): optional sign, decimal digits, 64-bit range. -/
def goParseInt64 (s : String) : Option Int :=
  let core : Option Int :=
    match s.data with
    | '-' :: rest => (natOfDigits rest).map (fun n => -(n : Int))
    | '+' :: rest => (natOfDigits rest).map (fun n => (n : Int))
    | l => (natOfDigits l).map (fun n => (n : Int))
  core.bind fun x => if -(2 ^ 63) ≤ x ∧ x < 2 ^ 63 then some x else none

/- ---------------------------------------------------------------------
Backend adapter: executeGitCommand.
--------------------------------------------------------------------- -/

/-- Mirrors executeGitCommand / executeGitCommandContext: runs the oracle,
and on a nonzero exit code builds the wrapping error message
"git ARG0 failed with exit code N: exit status N; stderr: STDERR"
(the wrapped exec.ExitError prints as "exit status N").  On success the
returned stdout and stderr are whitespace-trimmed; on failure they are raw. -/
def execGit (g : GitExec) (args : Cmd) : String × String × Option String :=
  let r := g args
  if r.exitCode = 0 then
    (goTrim r.stdout, goTrim r.stderr, none)
  else
    (r.stdout, r.stderr,
      some ("git " ++ args.headD "" ++ " failed with exit code " ++ toString r.exitCode
        ++ ": exit status " ++ toString r.exitCode ++ "; stderr: " ++ r.stderr))

/- ---------------------------------------------------------------------
Error taxonomy (errors.go) and validation helpers.
--------------------------------------------------------------------- -/

/-- The typed errors of the notes package.  Untyped fmt.Errorf errors are
modelled as wrapped carrying the formatted message. -/
inductive NotesError where
  | noteNotFound (ns sha : String)
  | invalidCommitSha (sha : String)
  | noteSizeExceeded (size maxSize : Nat)
  | wrapped (msg : String)
deriving DecidableEq

/-- The Error() string of each error value. -/
def errText : NotesError → String
  | .noteNotFound ns sha => "note not found for commit " ++ sha ++ " in ref " ++ ns
  | .invalidCommitSha sha => "invalid or non-existent commit SHA: " ++ sha
  | .noteSizeExceeded s m =>
      "note size " ++ toString s ++ " exceeds maximum allowed size " ++ toString m
  | .wrapped msg => msg

/-- IsNoteNotFound from errors.go. -/
def isNoteNotFound : NotesError → Bool
  | .noteNotFound _ _ => true
  | _ => false

/-- MaxNoteSize: maximum allowed size for a single note (10 MiB). -/
def MaxNoteSize : Nat := 10 * 1024 * 1024

/-- MaxJSONObjects: maximum number of JSON objects in a single note. -/
def MaxJSONObjects : Nat := 1000

/-- DefaultRetryAttempts for push operations. -/
def DefaultRetryAttempts : Nat := 3

/-- isSafeRevisionSpec: empty is safe; a leading dash or an embedded NUL is not. -/
def isSafeRevisionSpec (sha : String) : Bool :=
  if sha = "" then true
  else if strHasPre sha "-" then false
  else !(sha.data.contains (Char.ofNat 0))

/-- validateCommitSHA: reject unsafe revision specs; accept empty (meaning
HEAD); otherwise verify the spec resolves via the backend (rev-parse
--verify).  Also returns the backend invocations it performed. -/
def validateCommitSHA (g : GitExec) (sha : String) : Option NotesError × Trace :=
  if ¬ isSafeRevisionSpec sha then (some (.invalidCommitSha sha), [])
  else if sha = "" then (none, [])
  else
    let c : Cmd := ["rev-parse", "--verify", sha]
    match (execGit g c).2.2 with
    | some _ => (some (.invalidCommitSha sha), [c])
    | none => (none, [c])

/-- formatNamespaceRef: empty maps to the default ref, an already qualified
ref passes through, anything else is prefixed. -/
def formatNamespaceRef (ns : String) : String :=
  if ns = "" then "refs/notes/commits"
  else if strHasPre ns "refs/notes/" then ns
  else "refs/notes/" ++ ns

/- ---------------------------------------------------------------------
Annotation store: GetNote / SetNote / DeleteNote (part_002).
--------------------------------------------------------------------- -/

/-- Classification of a failed notes-show invocation, from GetNoteWithContext. -/
def classifyGetNote (ns ref sha errStr stderr : String) : NotesError :=
  let stderrLower := strToLower stderr
  if strContains errStr "exit code 1" &&
      (strContains stderrLower "no note found" || strContains stderrLower "no notes found") then
    .noteNotFound ns sha
  else if strContains errStr "no note found for object" ||
      strContains errStr "failed to get note" then
    .noteNotFound ns sha
  else if strContains errStr "fatal: failed to resolve" ||
      strContains errStr "exit code 128" then
    .invalidCommitSha sha
  else
    .wrapped ("failed to get note for " ++ sha ++ " in " ++ ref ++ ": " ++ errStr)

/-- GetNote / GetNoteWithContext with a never-cancelled context: validate,
resolve HEAD when the sha is empty, then run notes show and classify any
failure. -/
def GetNote (g : GitExec) (ns commitSha : String) : Except NotesError String × Trace :=
  match validateCommitSHA g commitSha with
  | (some e, tr) => (.error e, tr)
  | (none, tr) =>
    let ref := formatNamespaceRef ns
    if commitSha = "" then
      let cHead : Cmd := ["rev-parse", "HEAD"]
      match execGit g cHead with
      | (_, _, some e) =>
          (.error (.wrapped ("failed to resolve HEAD: " ++ e)), tr ++ [cHead])
      | (headSha, _, none) =>
        let cShow : Cmd := ["notes", "--ref", ref, "show", headSha]
        match execGit g cShow with
        | (out, _, none) => (.ok out, tr ++ [cHead, cShow])
        | (_, stderr, some errStr) =>
            (.error (classifyGetNote ns ref headSha errStr stderr), tr ++ [cHead, cShow])
    else
      let cShow : Cmd := ["notes", "--ref", ref, "show", commitSha]
      match execGit g cShow with
      | (out, _, none) => (.ok out, tr ++ [cShow])
      | (_, stderr, some errStr) =>
          (.error (classifyGetNote ns ref commitSha errStr stderr), tr ++ [cShow])

/-- SetNote: validate the sha, reject oversized content, resolve HEAD when
the sha is empty, then force-add the note. -/
def SetNote (g : GitExec) (ns commitSha value : String) : Option NotesError × Trace :=
  match validateCommitSHA g commitSha with
  | (some e, tr) => (some e, tr)
  | (none, tr) =>
    if goLen value > MaxNoteSize then
      (some (.noteSizeExceeded (goLen value) MaxNoteSize), tr)
    else
      let ref := formatNamespaceRef ns
      if commitSha = "" then
        let cHead : Cmd := ["rev-parse", "HEAD"]
        match execGit g cHead with
        | (_, _, some e) =>
            (some (.wrapped ("failed to resolve HEAD: " ++ e)), tr ++ [cHead])
        | (headSha, _, none) =>
          let cAdd : Cmd := ["notes", "--ref", ref, "add", "-f", "-m", value, headSha]
          match execGit g cAdd with
          | (_, _, none) => (none, tr ++ [cHead, cAdd])
          | (stdout, stderr, some e) =>
              (some (.wrapped ("failed to set note for " ++ headSha ++ " in " ++ ref
                ++ " (stdout: " ++ stdout ++ " | stderr: " ++ stderr ++ "): " ++ e)),
               tr ++ [cHead, cAdd])
      else
        let cAdd : Cmd := ["notes", "--ref", ref, "add", "-f", "-m", value, commitSha]
        match execGit g cAdd with
        | (_, _, none) => (none, tr ++ [cAdd])
        | (stdout, stderr, some e) =>
            (some (.wrapped ("failed to set note for " ++ commitSha ++ " in " ++ ref
              ++ " (stdout: " ++ stdout ++ " | stderr: " ++ stderr ++ "): " ++ e)),
             tr ++ [cAdd])

/-- DeleteNote: reject an empty sha outright, validate, then remove the
note, treating an absent note as success (idempotent delete). -/
def DeleteNote (g : GitExec) (ns commitSha : String) : Option NotesError × Trace :=
  if commitSha = "" then (some (.wrapped "commitSha cannot be empty"), [])
  else
    match validateCommitSHA g commitSha with
    | (some e, tr) => (some e, tr)
    | (none, tr) =>
      let ref := formatNamespaceRef ns
      let cRm : Cmd := ["notes", "--ref", ref, "remove", commitSha]
      match execGit g cRm with
      | (_, _, none) => (none, tr ++ [cRm])
      | (_, stderr, some errStr) =>
        if strContains stderr "object has no note" || strContains errStr "exit code 1" then
          (none, tr ++ [cRm])
        else
          (some (.wrapped ("failed to delete note for " ++ commitSha ++ " in " ++ ref
            ++ " (stderr: " ++ stderr ++ "): " ++ errStr)), tr ++ [cRm])

/- ---------------------------------------------------------------------
Bulk reader: GetNotesBulk (part_002).

The Go version dispatches valid shas to goroutines bounded by a semaphore
of 10 and collects per-sha outcomes under a mutex.  With a deterministic
backend oracle every schedule produces the same maps; the model executes
the dispatches sequentially in input order.  Result and error maps are
modelled as functions to Option.
--------------------------------------------------------------------- -/

/-- The aggregation state of one GetNotesBulk call: the two result maps and
the list of shas actually dispatched to GetNote. -/
structure BulkState where
  results : String → Option String
  errors : String → Option NotesError
  dispatched : List String

/-- Point update of a map, as Go map assignment. -/
def mapPut {α : Type} (m : String → Option α) (k : String) (v : α) : String → Option α :=
  fun x => if x = k then some v else m x

/-- Validation pass of GetNotesBulk: record a validation error for every
failing sha. -/
def bulkValidate (g : GitExec) : List String → (String → Option NotesError) → (String → Option NotesError)
  | [], m => m
  | sha :: rest, m =>
    match (validateCommitSHA g sha).1 with
    | some e => bulkValidate g rest (mapPut m sha e)
    | none => bulkValidate g rest m

/-- Dispatch pass of GetNotesBulk: skip shas already carrying an error,
fetch the rest, and record each outcome under its own key. -/
def bulkDispatch (g : GitExec) (ns : String) : List String → BulkState → BulkState
  | [], st => st
  | sha :: rest, st =>
    if (st.errors sha).isSome then bulkDispatch g ns rest st
    else
      match (GetNote g ns sha).1 with
      | .ok note =>
          bulkDispatch g ns rest
            { st with results := mapPut st.results sha note, dispatched := st.dispatched ++ [sha] }
      | .error e =>
          bulkDispatch g ns rest
            { st with errors := mapPut st.errors sha e, dispatched := st.dispatched ++ [sha] }

/-- GetNotesBulk: validate everything up front, then dispatch the valid
shas; never returns an overall error, only the two maps. -/
def GetNotesBulk (g : GitExec) (ns : String) (commitShas : List String) : BulkState :=
  bulkDispatch g ns commitShas
    { results := fun _ => none, errors := bulkValidate g commitShas (fun _ => none), dispatched := [] }

/- ---------------------------------------------------------------------
GetNoteList (part_002).
--------------------------------------------------------------------- -/

/-- Sha with its commit timestamp, from the batched show query. -/
structure CommitInfo where
  sha : String
  ts : Int
deriving DecidableEq

/-- Commit keys from the output of notes list: the second field of every
line having at least two fields. -/
def listKeys (out : String) : List String :=
  (goLines out).filterMap fun l =>
    match goFields l with
    | _ :: k :: _ => some k
    | _ => none

/-- Parse the output lines of the batched timestamp query, failing on the
first malformed timestamp and silently skipping lines with fewer than two
fields. -/
def parseTsEntries : List String → Except String (List CommitInfo)
  | [] => .ok []
  | l :: rest =>
    match goFields l with
    | sha :: tsStr :: _ =>
      match goParseInt64 tsStr with
      | none => .error ("failed to parse timestamp for commit " ++ sha)
      | some ts => (parseTsEntries rest).map (fun es => ⟨sha, ts⟩ :: es)
    | _ => parseTsEntries rest

/-- Newest-first ordering on commit infos (descending timestamp). -/
def tsDesc (a b : CommitInfo) : Prop := b.ts ≤ a.ts

instance : DecidableRel tsDesc := fun a b => inferInstanceAs (Decidable (b.ts ≤ a.ts))

/-- GetNoteList: list the noted commits, fetch all their timestamps in one
batched show invocation, sort newest first.  The Go code sorts with
sort.Slice, an unspecified comparison sort; the model uses insertion sort,
which realises the same specification (a permutation ordered by
descending timestamp). -/
def GetNoteList (g : GitExec) (ns : String) : Except String (List String) × Trace :=
  let ref := formatNamespaceRef ns
  let cList : Cmd := ["notes", "--ref", ref, "list"]
  match execGit g cList with
  | (_, _, some errMsg) =>
    if strContains errMsg "bad notes ref" || strContains errMsg "does not exist" ||
        strContains errMsg "no notes found" || strContains errMsg "exit code 1" then
      (.ok [], [cList])
    else
      (.error ("failed to list notes in " ++ ref ++ ": " ++ errMsg), [cList])
  | (lout, _, none) =>
    if lout = "" then (.ok [], [cList])
    else
      let commitShas := listKeys lout
      if commitShas = [] then (.ok [], [cList])
      else
        let cShow : Cmd := ["show", "-s", "--format=%H %ct"] ++ commitShas
        match execGit g cShow with
        | (_, _, some e) =>
            (.error ("failed to get timestamps for commits: " ++ e), [cList, cShow])
        | (tsOut, _, none) =>
          match parseTsEntries (goLines tsOut) with
          | .error e => (.error e, [cList, cShow])
          | .ok entries =>
              (.ok ((List.insertionSort tsDesc entries).map (·.sha)), [cList, cShow])

/- ---------------------------------------------------------------------
FetchNotes (part_002).
--------------------------------------------------------------------- -/

/-- The secondary key fetch of FetchNotes collects the distinct commit shas
referenced by the fetched notes.  Go iterates a map in unspecified order;
the model keeps the first occurrence of each key. -/
def distinctKeys (l : List String) : List String :=
  l.foldl (fun acc k => if k ∈ acc then acc else acc ++ [k]) []

/-- FetchNotes: force-fetch the namespace ref from the remote; an error
whose stderr names a missing remote ref, or whose text contains
"exit status 1" or "exit status 128", is treated as the remote simply
lacking the ref and the call succeeds.  On a successful primary fetch the
referenced commits are best-effort fetched in one batched call whose
outcome is ignored. -/
def FetchNotes (g : GitExec) (ns remoteName : String) : Option String × Trace :=
  if remoteName = "" then (some "remoteName cannot be empty", [])
  else
    let localRef := formatNamespaceRef ns
    let fullRefSpec := localRef ++ ":" ++ localRef
    let cFetch : Cmd := ["fetch", "--force", remoteName, fullRefSpec]
    match execGit g cFetch with
    | (_, stderrOutput, some errStr) =>
      let sl := strToLower stderrOutput
      if strContains sl "couldn\x27t find remote ref" || strContains sl "no such ref" ||
          strContains sl "fetch-pack: invalid refspec" ||
          strContains errStr "exit status 1" || strContains errStr "exit status 128" then
        (none, [cFetch])
      else
        (some ("failed to fetch notes for namespace " ++ ns ++ " (refspec " ++ fullRefSpec
          ++ ") from " ++ remoteName ++ " (stderr: " ++ stderrOutput ++ "): " ++ errStr),
         [cFetch])
    | (_, _, none) =>
      let cList : Cmd := ["notes", "--ref", localRef, "list"]
      match execGit g cList with
      | (_, _, some _) => (none, [cFetch, cList])
      | (lout, _, none) =>
        if lout = "" then (none, [cFetch, cList])
        else
          let shas := distinctKeys (listKeys lout)
          if shas = [] then (none, [cFetch, cList])
          else (none, [cFetch, cList, ["fetch", remoteName] ++ shas])

/- ---------------------------------------------------------------------
Synchronizer: pushNotesAttempt / PushNotesWithRetry (part_002).
--------------------------------------------------------------------- -/

/-- Final push step of one attempt (step 4 of the protocol). -/
def pushPhase (g : GitExec) (localRef remoteName : String) (tr : Trace) : Option String × Trace :=
  let cPush : Cmd := ["push", remoteName, localRef]
  match execGit g cPush with
  | (_, _, none) => (none, tr ++ [cPush])
  | (_, stderr, some e) =>
      (some ("failed to push merged notes ref \x27" ++ localRef ++ "\x27 to remote \x27"
        ++ remoteName ++ "\x27: " ++ e ++ "; stderr: " ++ stderr), tr ++ [cPush])

/-- Merge step taken when the remote notes ref exists: snapshot the local
ref, verify the remote-tracking ref, merge with cat_sort_uniq; a failure
other than already-up-to-date aborts the merge, restores the snapshot when
one existed, and fails the attempt (steps 2-4 of the protocol). -/
def mergeAndPush (g : GitExec) (localRef remoteName : String) (tr : Trace) : Option String × Trace :=
  if strHasPre localRef "refs/notes/" then
    let remoteTrackingRef := "refs/remotes/" ++ remoteName ++ "/" ++ strTrimPre localRef "refs/"
    let cSnap : Cmd := ["rev-parse", localRef]
    let snap := execGit g cSnap
    let localRefSHA := match snap.2.2 with | some _ => "" | none => snap.1
    let cVerify : Cmd := ["rev-parse", "--verify", remoteTrackingRef]
    let tr := tr ++ [cSnap, cVerify]
    match (execGit g cVerify).2.2 with
    | some _ => pushPhase g localRef remoteName tr
    | none =>
      let cMerge : Cmd := ["notes", "--ref", localRef, "merge", "-s", "cat_sort_uniq", remoteTrackingRef]
      let mr := execGit g cMerge
      let tr := tr ++ [cMerge]
      match mr.2.2 with
      | none => pushPhase g localRef remoteName tr
      | some mergeErrStr =>
        let msl := strToLower mr.2.1
        if strContains msl "already up to date" || strContains msl "nothing to merge" then
          pushPhase g localRef remoteName tr
        else
          let tr := tr ++ [["notes", "--ref", localRef, "merge", "--abort"]]
          let tr := if localRefSHA ≠ "" then tr ++ [["update-ref", localRef, goTrim localRefSHA]] else tr
          if strContains msl "conflict" then
            (some ("failed to automatically merge notes from \x27" ++ remoteTrackingRef
              ++ "\x27 into \x27" ++ localRef ++ "\x27 using \x27cat_sort_uniq\x27, conflict: "
              ++ mergeErrStr ++ "; stderr: " ++ mr.2.1), tr)
          else
            (some ("failed to merge notes from \x27" ++ remoteTrackingRef ++ "\x27 into \x27"
              ++ localRef ++ "\x27: " ++ mergeErrStr ++ "; stderr: " ++ mr.2.1), tr)
  else
    (some ("internal error: localRef \x27" ++ localRef
      ++ "\x27 is not in the expected \x27refs/notes/...\x27 format"), tr)

/-- One push attempt: stabilise (abort any stale merge), fetch the remote
ref, decide whether the remote has notes, then merge and push. -/
def pushNotesAttempt (g : GitExec) (ns remoteName : String) : Option String × Trace :=
  let localRef := formatNamespaceRef ns
  let cAbort : Cmd := ["notes", "--ref", localRef, "merge", "--abort"]
  let cFetch : Cmd := ["fetch", remoteName, localRef]
  let fr := execGit g cFetch
  let tr : Trace := [cAbort, cFetch]
  match fr.2.2 with
  | none => mergeAndPush g localRef remoteName tr
  | some errStr =>
    let sl := strToLower fr.2.1
    if strContains sl "couldn\x27t find remote ref" || strContains sl "no such ref" ||
        strContains sl "fetch-pack: invalid refspec" ||
        (strContains errStr "exit status 1" && fr.2.1 == "") ||
        strContains errStr "exit status 128" then
      pushPhase g localRef remoteName tr
    else
      (some ("failed to fetch notes from remote \x27" ++ remoteName ++ "\x27 for ref \x27"
        ++ localRef ++ "\x27 before merge: " ++ errStr ++ "; stderr: " ++ fr.2.1), tr)

/-- The push error texts that mark a retryable concurrent-modification
failure, from PushNotesWithRetry. -/
def isRetryablePushErr (e : String) : Bool :=
  strContains e "non-fast-forward" || strContains e "fetch first" || strContains e "rejected"

/-- The retry loop of PushNotesWithRetry.  fuel is the number of loop
iterations left (initially maxRetries), attempt the 0-based index of the
current iteration; sleeps accumulates the backoff delays in milliseconds. -/
def pushRetryLoop (g : GitExec) (ns remoteName : String) (maxRetries : Nat) :
    Nat → Nat → List Nat → Option String × List Nat
  | 0, _, sleeps => (some ("push failed after " ++ toString maxRetries ++ " attempts"), sleeps)
  | fuel + 1, attempt, sleeps =>
    match (pushNotesAttempt g ns remoteName).1 with
    | none => (none, sleeps)
    | some e =>
      if isRetryablePushErr e && attempt < maxRetries - 1 then
        pushRetryLoop g ns remoteName maxRetries fuel (attempt + 1)
          (sleeps ++ [attempt * attempt * 100])
      else (some e, sleeps)

/-- PushNotesWithRetry: run push attempts up to maxRetries times, sleeping
attempt * attempt * 100 ms before each retry of a retryable failure. -/
def PushNotesWithRetry (g : GitExec) (ns remoteName : String) (maxRetries : Nat) :
    Option String × List Nat :=
  if remoteName = "" then (some "remoteName cannot be empty", [])
  else pushRetryLoop g ns remoteName maxRetries maxRetries 0 []

/-- PushNotes: PushNotesWithRetry with the default attempt budget. -/
def PushNotes (g : GitExec) (ns remoteName : String) : Option String × List Nat :=
  PushNotesWithRetry g ns remoteName DefaultRetryAttempts

/- ---------------------------------------------------------------------
JSON stream codec: SetNoteJSON / GetNoteJSON (part_002).

encoding/json is an external library; its streaming decoder is modelled
as an oracle that maps a note content to the sequence of documents the
decoder yields before either clean end of stream (fail = none) or a
decode failure carrying the decoder input offset and the cause text
(Decode errors and trailing garbage alike surface this way, and More()
keeps reporting true while garbage remains).  json.Marshal is modelled as
an oracle from values to an optional serialized string.
--------------------------------------------------------------------- -/

/-- What the streaming decoder yields on a given content. -/
structure JsonStreamModel (T : Type) where
  docs : List T
  fail : Option (Nat × String)

/-- The decoder oracle for element type T. -/
abbrev JsonDecoder (T : Type) := String → JsonStreamModel T

/-- The error outcomes of GetNoteJSON.  decodeFail carries the data the
formatted message reports: documents processed so far, the approximate
input offset, the context snippet around it, and the wrapped cause. -/
inductive JsonError where
  | emptySha
  | getFailed (msg : String)
  | tooMany (maxObjects : Nat)
  | decodeFail (processed : Nat) (offset : Nat) (snippet : String) (cause : String)
deriving DecidableEq

/-- The context snippet GetNoteJSON builds around a decode failure: the
content between offset - 20 (clamped at 0) and offset + 20 (clamped at
the content length), or a placeholder when the window is empty.  Offsets
index characters here; in Go they index bytes, which coincides on ASCII
content. -/
def snippetAt (content : String) (offset : Nat) : String :=
  let len := content.data.length
  let snippetStart := offset - 20
  let snippetEnd := min (offset + 20) len
  if snippetStart < snippetEnd ∧ snippetStart < len ∧ snippetEnd ≤ len then
    String.mk ((content.data.drop snippetStart).take (snippetEnd - snippetStart))
  else if snippetStart < len then
    String.mk (content.data.drop snippetStart)
  else
    "(context unavailable)"

/-- The decode loop of GetNoteJSON over the modelled stream: while the
decoder has more input (a pending document or pending garbage), first
enforce the MaxJSONObjects bound, then consume the next document or
report the failure with partial results. -/
def decodeLoop {T : Type} (content : String) (fail : Option (Nat × String)) :
    List T → List T → Nat → List T × Option JsonError
  | [], acc, count =>
    match fail with
    | none => (acc, none)
    | some (off, cause) =>
      if count ≥ MaxJSONObjects then (acc, some (.tooMany MaxJSONObjects))
      else (acc, some (.decodeFail acc.length off (snippetAt content off) cause))
  | d :: rest, acc, count =>
    if count ≥ MaxJSONObjects then (acc, some (.tooMany MaxJSONObjects))
    else decodeLoop content fail rest (acc ++ [d]) (count + 1)

/-- GetNoteJSON: reject an empty sha, read the note (an absent note or
whitespace-only content decodes to the empty sequence without error),
then run the streaming decode loop. -/
def GetNoteJSON {T : Type} (g : GitExec) (jd : JsonDecoder T) (ns commitSha : String) :
    (List T × Option JsonError) × Trace :=
  if commitSha = "" then (([], some .emptySha), [])
  else
    match GetNote g ns commitSha with
    | (.error e, tr) =>
      if isNoteNotFound e then (([], none), tr)
      else
        (([], some (.getFailed ("failed to get underlying note for commit " ++ commitSha
          ++ ": " ++ errText e))), tr)
    | (.ok noteContent, tr) =>
      if goTrim noteContent = "" then (([], none), tr)
      else
        let m := jd noteContent
        (decodeLoop noteContent m.fail m.docs [] 0, tr)

/-- SetNoteJSON: reject an empty sha, serialize the value, store the JSON
text as the entire note via SetNote (full overwrite). -/
def SetNoteJSON {T : Type} (g : GitExec) (marshal : T → Option String) (ns commitSha : String)
    (v : T) : Option NotesError × Trace :=
  if commitSha = "" then (some (.wrapped "commitSha cannot be empty for SetNoteJSON"), [])
  else
    match marshal v with
    | none => (some (.wrapped ("failed to marshal value to JSON for commit " ++ commitSha)), [])
    | some jsonData => SetNote g ns commitSha jsonData

/- ---------------------------------------------------------------------
Helper lemmas about the string primitives.
--------------------------------------------------------------------- -/

lemma listStartsWith_append (p s : List Char) : listStartsWith (p ++ s) p = true := by
  induction p with
  | nil => cases s <;> rfl
  | cons c p ih => simp [listStartsWith, ih]

lemma listHasSeg_nilPat (s : List Char) : listHasSeg s [] = true := by
  cases s <;> simp [listHasSeg, listStartsWith, List.isEmpty]

lemma listStartsWith_extend (s y p : List Char) (h : listStartsWith s p = true) :
    listStartsWith (s ++ y) p = true := by
  induction p generalizing s with
  | nil => cases s ++ y <;> rfl
  | cons c p ih =>
    cases s with
    | nil => simp [listStartsWith] at h
    | cons a s =>
      simp only [listStartsWith, Bool.and_eq_true] at h
      simp [listStartsWith, h.1, ih s h.2]

lemma listHasSeg_left (x s p : List Char) (h : listHasSeg s p = true) :
    listHasSeg (x ++ s) p = true := by
  induction x with
  | nil => simpa using h
  | cons a x ih => simp [listHasSeg, ih]

lemma listHasSeg_right (s y p : List Char) (h : listHasSeg s p = true) :
    listHasSeg (s ++ y) p = true := by
  induction s with
  | nil =>
    have hp : p = [] := by
      cases p with
      | nil => rfl
      | cons c p => simp [listHasSeg, List.isEmpty] at h
    subst hp
    exact listHasSeg_nilPat y
  | cons a s ih =>
    simp only [listHasSeg, Bool.or_eq_true] at h
    rcases h with h | h
    · have := listStartsWith_extend (a :: s) y p h
      simpa [listHasSeg] using Or.inl this
    · simp [listHasSeg, ih h]

lemma strContains_left (x s p : String) (h : strContains s p = true) :
    strContains (x ++ s) p = true := by
  simpa [strContains, String.data_append] using listHasSeg_left x.data s.data p.data h

lemma strContains_right (s y p : String) (h : strContains s p = true) :
    strContains (s ++ y) p = true := by
  simpa [strContains, String.data_append] using listHasSeg_right s.data y.data p.data h

lemma strHasPre_append (p s : String) : strHasPre (p ++ s) p = true := by
  simpa [strHasPre, String.data_append] using listStartsWith_append p.data s.data

/-- Every namespace maps to a ref under refs/notes/. -/
lemma formatNamespaceRef_hasPre (ns : String) :
    strHasPre (formatNamespaceRef ns) "refs/notes/" = true := by
  unfold formatNamespaceRef
  split
  · decide
  · split
    · assumption
    · exact strHasPre_append "refs/notes/" ns

/-- The wrapping message built by execGit for exit code 1 contains the
exec.ExitError text "exit status 1". -/
lemma execMsg_has_exitStatus1 (a0 stderr : String) :
    strContains ("git " ++ a0 ++ " failed with exit code " ++ toString (1 : Nat)
      ++ ": exit status " ++ toString (1 : Nat) ++ "; stderr: " ++ stderr)
      "exit status 1" = true := by
  have h1 : strContains (": exit status " ++ toString (1 : Nat)) "exit status 1" = true := by
    decide
  have h2 := strContains_left ("git " ++ a0 ++ " failed with exit code " ++ toString (1 : Nat))
    _ _ h1
  rw [← String.append_assoc] at h2
  have h3 := strContains_right _ "; stderr: " _ h2
  have h4 := strContains_right _ stderr _ h3
  exact h4

/-- The wrapping message built by execGit for exit code 128 contains the
exec.ExitError text "exit status 128". -/
lemma execMsg_has_exitStatus128 (a0 stderr : String) :
    strContains ("git " ++ a0 ++ " failed with exit code " ++ toString (128 : Nat)
      ++ ": exit status " ++ toString (128 : Nat) ++ "; stderr: " ++ stderr)
      "exit status 128" = true := by
  have h1 : strContains (": exit status " ++ toString (128 : Nat)) "exit status 128" = true := by
    decide
  have h2 := strContains_left ("git " ++ a0 ++ " failed with exit code " ++ toString (128 : Nat))
    _ _ h1
  rw [← String.append_assoc] at h2
  have h3 := strContains_right _ "; stderr: " _ h2
  have h4 := strContains_right _ stderr _ h3
  exact h4

/-- Go byte length of a character-list string. -/
lemma goLen_mk (l : List Char) : goLen (String.mk l) = (l.map Char.utf8Size).sum := rfl

/-- Go byte length of a replicated character. -/
lemma goLen_replicate (n : Nat) (c : Char) :
    goLen (String.mk (List.replicate n c)) = n * c.utf8Size := by
  simp [goLen, List.map_replicate, List.sum_replicate, smul_eq_mul]

/- ---------------------------------------------------------------------
Claim C10: FetchNotes and fetch failures with exit status 1 / 128.
--------------------------------------------------------------------- -/

/-- Claim C10: FetchNotes returns success (no error) whenever the
underlying fetch of the namespace ref exits with status 1 or status 128,
regardless of the failure cause, because the wrapped error text always
contains the exec.ExitError string "exit status N". -/
theorem fetchNotes_swallows_exit1_exit128 (g : GitExec) (ns remoteName : String)
    (hrm : remoteName ≠ "")
    (h : (g ["fetch", "--force", remoteName,
            formatNamespaceRef ns ++ ":" ++ formatNamespaceRef ns]).exitCode = 1 ∨
         (g ["fetch", "--force", remoteName,
            formatNamespaceRef ns ++ ":" ++ formatNamespaceRef ns]).exitCode = 128) :
    (FetchNotes g ns remoteName).1 = none := by
  unfold FetchNotes
  rw [if_neg hrm]
  rcases h with h1 | h1 <;>
  · simp only [execGit, h1]
    norm_num
    first
    | (rw [execMsg_has_exitStatus1]; simp)
    | (rw [execMsg_has_exitStatus128]; simp)

/-- Backend oracle for the C10 witness: every invocation fails with exit
status 128 and the diagnostic git prints for a nonexistent remote. -/
def gFetch128 : GitExec := fun _ =>
  ⟨"", "fatal: \x27nonexistentremote\x27 does not appear to be a git repository", 128⟩

/-- Witness for C10: a fetch from a nonexistent remote (exit 128) is
swallowed and FetchNotes reports success. -/
theorem fetchNotes_swallows_exit1_exit128_witness :
    ("nonexistentremote" ≠ "") ∧
    (gFetch128 ["fetch", "--force", "nonexistentremote",
      formatNamespaceRef "dd_notes" ++ ":" ++ formatNamespaceRef "dd_notes"]).exitCode = 128 ∧
    (FetchNotes gFetch128 "dd_notes" "nonexistentremote").1 = none :=
  ⟨by decide, rfl,
    fetchNotes_swallows_exit1_exit128 gFetch128 "dd_notes" "nonexistentremote"
      (by decide) (Or.inr rfl)⟩

instance {ε α : Type} [DecidableEq ε] [DecidableEq α] : DecidableEq (Except ε α)
  | .ok a, .ok b => decidable_of_iff (a = b) (by simp)
  | .error a, .error b => decidable_of_iff (a = b) (by simp)
  | .ok _, .error _ => isFalse (fun h => Except.noConfusion h)
  | .error _, .ok _ => isFalse (fun h => Except.noConfusion h)

/- ---------------------------------------------------------------------
Claim C1: empty CommitRef handling in GetNote / SetNote / DeleteNote.
--------------------------------------------------------------------- -/

/-- An all-success backend oracle. -/
def gAllOk : GitExec := fun _ => ⟨"", "", 0⟩

/-- Counterexample to C1 as stated: even against a backend where every
invocation succeeds, DeleteNote with an empty CommitRef is rejected up
front with the error "commitSha cannot be empty" and performs no backend
invocation at all, instead of being applied to the resolved head. -/
theorem deleteNote_rejects_empty_sha :
    DeleteNote gAllOk "dd_notes" "" = (some (.wrapped "commitSha cannot be empty"), []) := rfl

/-- Claim C1 (amended): GetNote and SetNote accept an empty CommitRef,
pass validation, resolve the current head with rev-parse HEAD and apply
the operation to the resolved head commit; DeleteNote instead rejects an
empty CommitRef with an error before any backend invocation. -/
theorem emptyRef_resolves_head (g : GitExec) (ns v : String)
    (hHead : (g ["rev-parse", "HEAD"]).exitCode = 0)
    (hShow : (g ["notes", "--ref", formatNamespaceRef ns, "show",
        goTrim (g ["rev-parse", "HEAD"]).stdout]).exitCode = 0)
    (hAdd : (g ["notes", "--ref", formatNamespaceRef ns, "add", "-f", "-m", v,
        goTrim (g ["rev-parse", "HEAD"]).stdout]).exitCode = 0)
    (hSize : goLen v ≤ MaxNoteSize) :
    GetNote g ns "" =
      (.ok (goTrim (g ["notes", "--ref", formatNamespaceRef ns, "show",
          goTrim (g ["rev-parse", "HEAD"]).stdout]).stdout),
        [["rev-parse", "HEAD"],
         ["notes", "--ref", formatNamespaceRef ns, "show",
          goTrim (g ["rev-parse", "HEAD"]).stdout]]) ∧
    SetNote g ns "" v =
      (none,
        [["rev-parse", "HEAD"],
         ["notes", "--ref", formatNamespaceRef ns, "add", "-f", "-m", v,
          goTrim (g ["rev-parse", "HEAD"]).stdout]]) ∧
    DeleteNote g ns "" = (some (.wrapped "commitSha cannot be empty"), []) := by
  refine ⟨?_, ?_, rfl⟩
  · unfold GetNote validateCommitSHA
    norm_num [isSafeRevisionSpec, execGit, hHead, hShow]
  · unfold SetNote validateCommitSHA
    norm_num [isSafeRevisionSpec, execGit, hHead, hAdd, Nat.not_lt.mpr hSize]

/-- Backend oracle for the C1 witness: HEAD resolves to a concrete sha,
every other invocation succeeds with a fixed note payload. -/
def gHeadOk : GitExec := fun args =>
  if args = ["rev-parse", "HEAD"] then ⟨"abc123\n", "", 0⟩ else ⟨"note content", "", 0⟩

/-- Witness for the amended C1 at a concrete oracle: both read and write
with an empty CommitRef resolve HEAD (abc123) and succeed, and DeleteNote
rejects the empty CommitRef. -/
theorem emptyRef_resolves_head_witness :
    (gHeadOk ["rev-parse", "HEAD"]).exitCode = 0 ∧
    goLen "v" ≤ MaxNoteSize ∧
    (GetNote gHeadOk "dd_notes" "" =
      (.ok "note content",
        [["rev-parse", "HEAD"],
         ["notes", "--ref", "refs/notes/dd_notes", "show", "abc123"]]) ∧
     SetNote gHeadOk "dd_notes" "" "v" =
      (none,
        [["rev-parse", "HEAD"],
         ["notes", "--ref", "refs/notes/dd_notes", "add", "-f", "-m", "v", "abc123"]]) ∧
     DeleteNote gHeadOk "dd_notes" "" = (some (.wrapped "commitSha cannot be empty"), [])) := by
  refine ⟨rfl, by decide, ?_⟩
  have h := emptyRef_resolves_head gHeadOk "dd_notes" "v" rfl (by decide) (by decide) (by decide)
  revert h
  decide

/- ---------------------------------------------------------------------
Claim C2: SetNote and oversized content.
--------------------------------------------------------------------- -/

/-- A content string one byte over the 10 MiB bound. -/
def bigNote : String := String.mk (List.replicate (MaxNoteSize + 1) 'a')

lemma bigNote_len : goLen bigNote = MaxNoteSize + 1 := by
  unfold bigNote
  rw [goLen_replicate]
  have h1 : ('a').utf8Size = 1 := by decide
  rw [h1, Nat.mul_one]

lemma bigNote_big : goLen bigNote > MaxNoteSize := by
  rw [bigNote_len]
  exact Nat.lt_succ_self _

/-- Counterexample to C2 as stated: with a valid non-empty commit sha and
oversized content, SetNote does return the typed size-exceeded error, but
only after one backend invocation (the rev-parse --verify run of commit
validation), so the rejection does not happen before any backend
invocation: the trace at the point of rejection is nonempty. -/
theorem setNote_oversize_counterexample :
    SetNote gAllOk "dd_notes" "abc1" bigNote =
      (some (.noteSizeExceeded (MaxNoteSize + 1) MaxNoteSize),
        [["rev-parse", "--verify", "abc1"]]) ∧
    ([["rev-parse", "--verify", "abc1"]] : Trace) ≠ [] := by
  constructor
  · have hsafe : isSafeRevisionSpec "abc1" = true := by decide
    unfold SetNote validateCommitSHA
    norm_num [hsafe, execGit, gAllOk, bigNote_len]
    decide
  · simp

/-- Claim C2 (amended): for every content string longer than the 10 MiB
bound and every commit sha that passes validation, SetNote returns the
typed NoteSizeExceededError and performs no backend mutation — the only
backend invocation preceding the rejection is the read-only
rev-parse --verify run of commit validation (none at all for an empty
sha), and in particular no notes command is ever dispatched. -/
theorem setNote_oversize_rejected (g : GitExec) (ns sha v : String)
    (hsafe : isSafeRevisionSpec sha = true)
    (hres : sha = "" ∨ (g ["rev-parse", "--verify", sha]).exitCode = 0)
    (hbig : goLen v > MaxNoteSize) :
    SetNote g ns sha v =
      (some (.noteSizeExceeded (goLen v) MaxNoteSize),
        if sha = "" then ([] : Trace) else [["rev-parse", "--verify", sha]]) ∧
    ∀ c ∈ (SetNote g ns sha v).2, c.headD "" = "rev-parse" := by
  have hmain : SetNote g ns sha v =
      (some (.noteSizeExceeded (goLen v) MaxNoteSize),
        if sha = "" then ([] : Trace) else [["rev-parse", "--verify", sha]]) := by
    unfold SetNote validateCommitSHA
    rcases hres with hres | hres
    · simp [hres, hsafe, hbig, show isSafeRevisionSpec "" = true from rfl]
    · by_cases hemp : sha = ""
      · simp [hemp, hsafe, hbig, show isSafeRevisionSpec "" = true from rfl]
      · simp [hemp, hsafe, hbig, execGit, hres]
  refine ⟨hmain, ?_⟩
  rw [hmain]
  split <;> simp

/-- Witness for the amended C2: the concrete oversized note is rejected
with the typed error after only the read-only validation invocation. -/
theorem setNote_oversize_rejected_witness :
    goLen bigNote > MaxNoteSize ∧
    (SetNote gAllOk "dd_notes" "abc1" bigNote).1 =
      some (.noteSizeExceeded (goLen bigNote) MaxNoteSize) ∧
    ∀ c ∈ (SetNote gAllOk "dd_notes" "abc1" bigNote).2, c.headD "" = "rev-parse" := by
  have h := setNote_oversize_rejected gAllOk "dd_notes" "abc1" bigNote (by decide)
    (Or.inr rfl) bigNote_big
  exact ⟨bigNote_big, by rw [h.1], h.2⟩

/- ---------------------------------------------------------------------
Claim C3: merge-failure handling in a push attempt.
--------------------------------------------------------------------- -/

/-- Backend oracle with the local namespace ref absent (rev-parse fails
with 128) and a merge that fails for an unrecognised reason. -/
def gMergeFail : GitExec := fun args =>
  if args = ["rev-parse", "refs/notes/ns"] then ⟨"", "", 128⟩
  else if args = ["notes", "--ref", "refs/notes/ns", "merge", "-s", "cat_sort_uniq",
      "refs/remotes/origin/notes/ns"] then ⟨"", "something broke", 1⟩
  else ⟨"", "", 0⟩

/-- Counterexample to C3 as stated: when the local ref was absent before a
failing merge, the attempt does fail with a surfaced error, but the local
namespace ref is never removed — the trace contains no update-ref (or any
other ref-mutating) command at all, only notes, fetch and rev-parse
invocations. -/
theorem mergeFailure_no_ref_removal_counterexample :
    (pushNotesAttempt gMergeFail "ns" "origin").1.isSome = true ∧
    (pushNotesAttempt gMergeFail "ns" "origin").2.filter (fun c => c.headD "" = "update-ref") = [] ∧
    ∀ c ∈ (pushNotesAttempt gMergeFail "ns" "origin").2,
      c.headD "" = "notes" ∨ c.headD "" = "fetch" ∨ c.headD "" = "rev-parse" := by
  decide

/-- Claim C3 (amended): during a single push attempt, every merge failure
other than the already-up-to-date / nothing-to-merge outcomes causes the
merge to be aborted and the attempt to fail with a surfaced conflict or
wrapped error (never silently dropped) without reaching the push step;
the local namespace ref is restored to the pre-merge snapshot when one
existed, and when the local ref was absent before the merge no restore or
removal command is issued. -/
theorem mergeFailure_rollback (g : GitExec) (ns rm : String)
    (hFetch : (g ["fetch", rm, formatNamespaceRef ns]).exitCode = 0)
    (hVerify : (g ["rev-parse", "--verify",
        "refs/remotes/" ++ rm ++ "/" ++ strTrimPre (formatNamespaceRef ns) "refs/"]).exitCode = 0)
    (hMerge : (g ["notes", "--ref", formatNamespaceRef ns, "merge", "-s", "cat_sort_uniq",
        "refs/remotes/" ++ rm ++ "/" ++ strTrimPre (formatNamespaceRef ns) "refs/"]).exitCode ≠ 0)
    (hUp : strContains (strToLower (g ["notes", "--ref", formatNamespaceRef ns, "merge", "-s",
        "cat_sort_uniq", "refs/remotes/" ++ rm ++ "/" ++ strTrimPre (formatNamespaceRef ns)
        "refs/"]).stderr) "already up to date" = false)
    (hNothing : strContains (strToLower (g ["notes", "--ref", formatNamespaceRef ns, "merge", "-s",
        "cat_sort_uniq", "refs/remotes/" ++ rm ++ "/" ++ strTrimPre (formatNamespaceRef ns)
        "refs/"]).stderr) "nothing to merge" = false) :
    (pushNotesAttempt g ns rm).1.isSome = true ∧
    (pushNotesAttempt g ns rm).2 =
      [["notes", "--ref", formatNamespaceRef ns, "merge", "--abort"],
       ["fetch", rm, formatNamespaceRef ns],
       ["rev-parse", formatNamespaceRef ns],
       ["rev-parse", "--verify",
        "refs/remotes/" ++ rm ++ "/" ++ strTrimPre (formatNamespaceRef ns) "refs/"],
       ["notes", "--ref", formatNamespaceRef ns, "merge", "-s", "cat_sort_uniq",
        "refs/remotes/" ++ rm ++ "/" ++ strTrimPre (formatNamespaceRef ns) "refs/"],
       ["notes", "--ref", formatNamespaceRef ns, "merge", "--abort"]] ++
      (if (if (g ["rev-parse", formatNamespaceRef ns]).exitCode = 0 then
            goTrim (g ["rev-parse", formatNamespaceRef ns]).stdout else "") ≠ "" then
        [["update-ref", formatNamespaceRef ns,
          goTrim (if (g ["rev-parse", formatNamespaceRef ns]).exitCode = 0 then
            goTrim (g ["rev-parse", formatNamespaceRef ns]).stdout else "")]]
       else []) ∧
    ["push", rm, formatNamespaceRef ns] ∉ (pushNotesAttempt g ns rm).2 := by
  have hpre := formatNamespaceRef_hasPre ns
  have hmain : (pushNotesAttempt g ns rm).2 =
      [["notes", "--ref", formatNamespaceRef ns, "merge", "--abort"],
       ["fetch", rm, formatNamespaceRef ns],
       ["rev-parse", formatNamespaceRef ns],
       ["rev-parse", "--verify",
        "refs/remotes/" ++ rm ++ "/" ++ strTrimPre (formatNamespaceRef ns) "refs/"],
       ["notes", "--ref", formatNamespaceRef ns, "merge", "-s", "cat_sort_uniq",
        "refs/remotes/" ++ rm ++ "/" ++ strTrimPre (formatNamespaceRef ns) "refs/"],
       ["notes", "--ref", formatNamespaceRef ns, "merge", "--abort"]] ++
      (if (if (g ["rev-parse", formatNamespaceRef ns]).exitCode = 0 then
            goTrim (g ["rev-parse", formatNamespaceRef ns]).stdout else "") ≠ "" then
        [["update-ref", formatNamespaceRef ns,
          goTrim (if (g ["rev-parse", formatNamespaceRef ns]).exitCode = 0 then
            goTrim (g ["rev-parse", formatNamespaceRef ns]).stdout else "")]]
       else []) ∧
      (pushNotesAttempt g ns rm).1.isSome = true := by
    unfold pushNotesAttempt mergeAndPush
    by_cases hsnap : (g ["rev-parse", formatNamespaceRef ns]).exitCode = 0 <;>
      by_cases hconf : strContains (strToLower (g ["notes", "--ref", formatNamespaceRef ns,
          "merge", "-s", "cat_sort_uniq", "refs/remotes/" ++ rm ++ "/" ++
          strTrimPre (formatNamespaceRef ns) "refs/"]).stderr) "conflict" = true <;>
      by_cases hempty : goTrim (g ["rev-parse", formatNamespaceRef ns]).stdout = "" <;>
      simp [execGit, hFetch, hVerify, hMerge, hUp, hNothing, hsnap, hconf, hempty, hpre]
  refine ⟨hmain.2, hmain.1, ?_⟩
  rw [hmain.1]
  intro hmem
  simp only [List.mem_append, List.mem_cons, List.not_mem_nil] at hmem
  rcases hmem with h | h
  · rcases h with h | h | h | h | h | h | h <;> simp_all
  · split at h <;> simp_all

/-- Backend oracle for the C3 witness: the local ref snapshot resolves to
deadbeef and the merge fails with a conflict diagnostic. -/
def gMergeConflict : GitExec := fun args =>
  if args = ["notes", "--ref", "refs/notes/ns", "merge", "-s", "cat_sort_uniq",
      "refs/remotes/origin/notes/ns"] then
    ⟨"", "Automatic notes merge failed. CONFLICT in notes", 1⟩
  else if args = ["rev-parse", "refs/notes/ns"] then ⟨"deadbeef\n", "", 0⟩
  else ⟨"", "", 0⟩

/-- Witness for the amended C3 at a concrete oracle: the failing merge is
aborted, the snapshot deadbeef is restored, the error is surfaced, and no
push happens. -/
theorem mergeFailure_rollback_witness :
    (gMergeConflict ["fetch", "origin", formatNamespaceRef "ns"]).exitCode = 0 ∧
    (gMergeConflict ["notes", "--ref", formatNamespaceRef "ns", "merge", "-s", "cat_sort_uniq",
      "refs/remotes/" ++ "origin" ++ "/" ++ strTrimPre (formatNamespaceRef "ns") "refs/"]).exitCode ≠ 0 ∧
    ((pushNotesAttempt gMergeConflict "ns" "origin").1.isSome = true ∧
     (pushNotesAttempt gMergeConflict "ns" "origin").2 =
      [["notes", "--ref", formatNamespaceRef "ns", "merge", "--abort"],
       ["fetch", "origin", formatNamespaceRef "ns"],
       ["rev-parse", formatNamespaceRef "ns"],
       ["rev-parse", "--verify",
        "refs/remotes/" ++ "origin" ++ "/" ++ strTrimPre (formatNamespaceRef "ns") "refs/"],
       ["notes", "--ref", formatNamespaceRef "ns", "merge", "-s", "cat_sort_uniq",
        "refs/remotes/" ++ "origin" ++ "/" ++ strTrimPre (formatNamespaceRef "ns") "refs/"],
       ["notes", "--ref", formatNamespaceRef "ns", "merge", "--abort"]] ++
      (if (if (gMergeConflict ["rev-parse", formatNamespaceRef "ns"]).exitCode = 0 then
            goTrim (gMergeConflict ["rev-parse", formatNamespaceRef "ns"]).stdout else "") ≠ "" then
        [["update-ref", formatNamespaceRef "ns",
          goTrim (if (gMergeConflict ["rev-parse", formatNamespaceRef "ns"]).exitCode = 0 then
            goTrim (gMergeConflict ["rev-parse", formatNamespaceRef "ns"]).stdout else "")]]
       else []) ∧
     ["push", "origin", formatNamespaceRef "ns"] ∉ (pushNotesAttempt gMergeConflict "ns" "origin").2) :=
  ⟨by decide, by decide,
    mergeFailure_rollback gMergeConflict "ns" "origin" (by decide) (by decide) (by decide)
      (by decide) (by decide)⟩

/- ---------------------------------------------------------------------
Claim C4: retry behaviour of PushNotesWithRetry.
--------------------------------------------------------------------- -/

/-- One-step unfolding of the retry loop. -/
lemma pushRetryLoop_succ (g : GitExec) (ns rm : String) (mr fuel attempt : Nat) (sleeps : List Nat) :
    pushRetryLoop g ns rm mr (fuel + 1) attempt sleeps =
      match (pushNotesAttempt g ns rm).1 with
      | none => (none, sleeps)
      | some e =>
        if isRetryablePushErr e && attempt < mr - 1 then
          pushRetryLoop g ns rm mr fuel (attempt + 1) (sleeps ++ [attempt * attempt * 100])
        else (some e, sleeps) := rfl

/-- One-step unfolding of the retry loop under a failing attempt. -/
lemma pushRetryLoop_succ_some (g : GitExec) (ns rm e : String) (mr fuel attempt : Nat)
    (sleeps : List Nat) (he : (pushNotesAttempt g ns rm).1 = some e) :
    pushRetryLoop g ns rm mr (fuel + 1) attempt sleeps =
      if isRetryablePushErr e && attempt < mr - 1 then
        pushRetryLoop g ns rm mr fuel (attempt + 1) (sleeps ++ [attempt * attempt * 100])
      else (some e, sleeps) := by
  rw [pushRetryLoop_succ, he]

/-- Closed form of the retry loop when every attempt fails with the same
retryable error (the oracle is deterministic, so all attempts agree). -/
lemma pushRetryLoop_retryable (g : GitExec) (ns rm e : String) (mr : Nat)
    (he : (pushNotesAttempt g ns rm).1 = some e)
    (hret : isRetryablePushErr e = true) :
    ∀ fuel attempt sleeps, 1 ≤ fuel → attempt + fuel = mr →
      pushRetryLoop g ns rm mr fuel attempt sleeps =
        (some e, sleeps ++ (List.range (fuel - 1)).map (fun i => (attempt + i) * (attempt + i) * 100)) := by
  intro fuel
  induction fuel with
  | zero => omega
  | succ f ih =>
    intro attempt sleeps _ htot
    rw [pushRetryLoop_succ_some g ns rm e mr f attempt sleeps he]
    cases f with
    | zero =>
      have hlt : ¬ attempt < mr - 1 := by omega
      simp [hlt]
    | succ f' =>
      have hlt : attempt < mr - 1 := by omega
      rw [if_pos (by simp [hret, hlt])]
      rw [ih (attempt + 1) (sleeps ++ [attempt * attempt * 100]) (by omega) (by omega)]
      congr 1
      rw [List.append_assoc]
      congr 1
      have h1 : f' + 1 + 1 - 1 = f' + 1 := rfl
      have h2 : f' + 1 - 1 = f' := rfl
      rw [h1, h2, List.range_succ_eq_map]
      simp only [List.map_cons, List.map_map, List.singleton_append, Nat.add_zero]
      congr 1
      apply List.map_congr_left
      intro i _
      simp only [Function.comp, Nat.succ_eq_add_one]
      ring

/-- Claim C4 (amended): a retryable push failure is retried up to the
configured number of attempts with backoff attempt * attempt * 100 ms,
the attempt index counting from 0 (so the first retry sleeps 0 ms); a
non-retryable failure is returned immediately without retry; exhausting
all attempts returns the push error of the final attempt, not a terminal
"push failed after N attempts" error — that message is produced only when
the attempt budget is not positive. -/
theorem pushRetry_behaviour (g : GitExec) (ns rm : String) (mr : Nat)
    (hrm : rm ≠ "") (hmr : 1 ≤ mr) :
    ((pushNotesAttempt g ns rm).1 = none → PushNotesWithRetry g ns rm mr = (none, [])) ∧
    (∀ e, (pushNotesAttempt g ns rm).1 = some e → isRetryablePushErr e = false →
      PushNotesWithRetry g ns rm mr = (some e, [])) ∧
    (∀ e, (pushNotesAttempt g ns rm).1 = some e → isRetryablePushErr e = true →
      PushNotesWithRetry g ns rm mr =
        (some e, (List.range (mr - 1)).map (fun a => a * a * 100))) ∧
    PushNotesWithRetry g ns rm 0 = (some "push failed after 0 attempts", []) := by
  obtain ⟨k, rfl⟩ : ∃ k, mr = k + 1 := ⟨mr - 1, by omega⟩
  refine ⟨?_, ?_, ?_, ?_⟩
  · intro hnone
    unfold PushNotesWithRetry
    simp [hrm, pushRetryLoop, hnone]
  · intro e he hret
    unfold PushNotesWithRetry
    simp [hrm, pushRetryLoop, he, hret]
  · intro e he hret
    unfold PushNotesWithRetry
    rw [if_neg hrm]
    rw [pushRetryLoop_retryable g ns rm e (k + 1) he hret (k + 1) 0 [] (by omega) (by omega)]
    simp
  · unfold PushNotesWithRetry
    rw [if_neg hrm]
    show pushRetryLoop g ns rm 0 0 0 [] = _
    simp only [pushRetryLoop]
    decide

/-- Backend oracle for C4: every fetch reports the remote ref missing
(exit 128) and every push is rejected as non-fast-forward, so each push
attempt fails with the same retryable error. -/
def gPushRejected : GitExec := fun args =>
  if args.headD "" = "push" then ⟨"", "rejected: fetch first", 1⟩
  else if args.headD "" = "fetch" then ⟨"", "", 128⟩
  else ⟨"", "", 0⟩

/-- The error every push attempt against gPushRejected produces. -/
def ePushRejected : String :=
  "failed to push merged notes ref \x27refs/notes/ns\x27 to remote \x27origin\x27: git push failed with exit code 1: exit status 1; stderr: rejected: fetch first; stderr: rejected: fetch first"

set_option maxRecDepth 40000 in
/-- Counterexample to C4 as stated: with a three-attempt budget and every
attempt failing with a retryable rejection, the retries happen (backoff
0 ms then 100 ms), but exhausting all attempts surfaces the push error of
the last attempt — the terminal "push failed after N attempts" message
never occurs. -/
theorem pushRetry_no_terminal_message_counterexample :
    (PushNotesWithRetry gPushRejected "ns" "origin" 3).1.isSome = true ∧
    strContains ((PushNotesWithRetry gPushRejected "ns" "origin" 3).1.getD "")
      "push failed after" = false ∧
    (PushNotesWithRetry gPushRejected "ns" "origin" 3).2 = [0, 100] := by
  decide

set_option maxRecDepth 40000 in
/-- Witness for the amended C4: against the always-rejected oracle with a
three-attempt budget, the result is the concrete attempt error and the
backoff delays are attempt * attempt * 100 for attempts 0 and 1. -/
theorem pushRetry_behaviour_witness :
    (pushNotesAttempt gPushRejected "ns" "origin").1 = some ePushRejected ∧
    isRetryablePushErr ePushRejected = true ∧
    PushNotesWithRetry gPushRejected "ns" "origin" 3 =
      (some ePushRejected, (List.range (3 - 1)).map (fun a => a * a * 100)) :=
  ⟨by decide, by decide,
    (pushRetry_behaviour gPushRejected "ns" "origin" 3 (by decide) (by omega)).2.2.1
      ePushRejected (by decide) (by decide)⟩

/- ---------------------------------------------------------------------
Decode-loop lemmas shared by the codec claims.
--------------------------------------------------------------------- -/

/-- A stream that ends cleanly within the object bound decodes fully. -/
lemma decodeLoop_clean {T : Type} (content : String) (docs : List T) :
    ∀ (acc : List T) (count : Nat), count = acc.length → count + docs.length ≤ MaxJSONObjects →
      decodeLoop content none docs acc count = (acc ++ docs, none) := by
  induction docs with
  | nil => intro acc count _ _; simp [decodeLoop]
  | cons d rest ih =>
    intro acc count hc hle
    have hlt : ¬ count ≥ MaxJSONObjects := by
      simp only [List.length_cons] at hle
      omega
    simp only [decodeLoop, if_neg hlt]
    have := ih (acc ++ [d]) (count + 1) (by simp [hc]) (by simp at hle ⊢; omega)
    rw [this]
    simp

/-- A stream that fails after fewer than the bound many documents decodes
to exactly those documents plus the typed failure report. -/
lemma decodeLoop_failure {T : Type} (content : String) (off : Nat) (cause : String)
    (docs : List T) :
    ∀ (acc : List T) (count : Nat), count = acc.length →
      count + docs.length < MaxJSONObjects →
      decodeLoop content (some (off, cause)) docs acc count =
        (acc ++ docs,
         some (.decodeFail (count + docs.length) off (snippetAt content off) cause)) := by
  induction docs with
  | nil =>
    intro acc count hc hlt
    have h : ¬ count ≥ MaxJSONObjects := by omega
    simp [decodeLoop, if_neg h, hc]
    omega
  | cons d rest ih =>
    intro acc count hc hlt
    have h : ¬ count ≥ MaxJSONObjects := by
      simp only [List.length_cons] at hlt
      omega
    simp only [decodeLoop, if_neg h]
    rw [ih (acc ++ [d]) (count + 1) (by simp [hc]) (by simp at hlt ⊢; omega)]
    simp only [List.append_assoc, List.singleton_append, List.length_cons]
    rw [show count + 1 + rest.length = count + (rest.length + 1) from by omega]

/-- A stream holding more documents than the bound is truncated to the
bound with the distinct limit error. -/
lemma decodeLoop_over {T : Type} (content : String) (fail : Option (Nat × String))
    (docs : List T) :
    ∀ (acc : List T) (count : Nat), count = acc.length → count ≤ MaxJSONObjects →
      MaxJSONObjects < count + docs.length →
      decodeLoop content fail docs acc count =
        (acc ++ docs.take (MaxJSONObjects - count), some (.tooMany MaxJSONObjects)) := by
  induction docs with
  | nil => intro acc count _ _ hgt; simp at hgt; omega
  | cons d rest ih =>
    intro acc count hc hle hgt
    by_cases hfull : count ≥ MaxJSONObjects
    · have hcnt : count = MaxJSONObjects := by omega
      have htake : MaxJSONObjects - count = 0 := by omega
      simp [decodeLoop, if_pos hfull, htake, hcnt]
    · simp only [decodeLoop, if_neg hfull]
      have := ih (acc ++ [d]) (count + 1) (by simp [hc]) (by omega)
        (by simp only [List.length_cons] at hgt; omega)
      rw [this]
      have hsplit : MaxJSONObjects - count = (MaxJSONObjects - (count + 1)) + 1 := by omega
      rw [hsplit, List.take_succ_cons]
      simp

/- ---------------------------------------------------------------------
Claim C6: partial results and failure report of GetNoteJSON.
--------------------------------------------------------------------- -/

/-- Claim C6: when the streaming decode of a note fails (malformed
document or trailing garbage) after k successfully decoded documents,
GetNoteJSON returns exactly those k values together with an error
reporting k (the number of documents processed), the approximate input
offset of the failure and the context snippet of the content around that
offset. -/
theorem getNoteJSON_partial_on_decode_failure {T : Type} (g : GitExec) (jd : JsonDecoder T)
    (ns sha content : String) (tr : Trace) (docs : List T) (off : Nat) (cause : String)
    (hsha : sha ≠ "")
    (hget : GetNote g ns sha = (.ok content, tr))
    (hne : goTrim content ≠ "")
    (hjd : jd content = ⟨docs, some (off, cause)⟩)
    (hk : docs.length < MaxJSONObjects) :
    GetNoteJSON g jd ns sha =
      ((docs, some (.decodeFail docs.length off (snippetAt content off) cause)), tr) := by
  unfold GetNoteJSON
  rw [if_neg hsha, hget]
  simp only [if_neg hne, hjd]
  rw [decodeLoop_failure content off cause docs [] 0 rfl (by simpa using hk)]
  simp

/-- Decoder oracle for the C6 witness: the concrete content decodes to one
document and then fails at offset 2. -/
def jdOneGarbage : JsonDecoder Nat := fun c =>
  if c = "1 garbage" then ⟨[1], some (2, "invalid character g")⟩ else ⟨[], none⟩

/-- Backend oracle for the C6 witness: the note content is doc1 followed
by garbage. -/
def gOneGarbage : GitExec := fun args =>
  if args = ["notes", "--ref", "refs/notes/ns", "show", "abc1"] then ⟨"1 garbage", "", 0⟩
  else ⟨"", "", 0⟩

set_option maxRecDepth 4000 in
/-- Witness for C6 at a concrete input: content doc1 plus garbage yields
([doc1], error reporting 1 document processed, offset 2 and the snippet). -/
theorem getNoteJSON_partial_on_decode_failure_witness :
    GetNote gOneGarbage "ns" "abc1" =
      (.ok "1 garbage", [["rev-parse", "--verify", "abc1"],
        ["notes", "--ref", "refs/notes/ns", "show", "abc1"]]) ∧
    jdOneGarbage "1 garbage" = ⟨[1], some (2, "invalid character g")⟩ ∧
    GetNoteJSON gOneGarbage jdOneGarbage "ns" "abc1" =
      (([1], some (.decodeFail 1 2 (snippetAt "1 garbage" 2) "invalid character g")),
        [["rev-parse", "--verify", "abc1"], ["notes", "--ref", "refs/notes/ns", "show", "abc1"]]) :=
  ⟨by decide, rfl,
    getNoteJSON_partial_on_decode_failure gOneGarbage jdOneGarbage "ns" "abc1" "1 garbage"
      [["rev-parse", "--verify", "abc1"], ["notes", "--ref", "refs/notes/ns", "show", "abc1"]]
      [1] 2 "invalid character g" (by decide) (by decide) (by decide) rfl (by decide)⟩

/- ---------------------------------------------------------------------
Claim C7: the MaxJSONObjects bound of GetNoteJSON.
--------------------------------------------------------------------- -/

/-- Claim C7: the decode never returns more than MaxJSONObjects = 1000
documents: a stream holding more than 1000 documents yields the first
1000 as partial results with the distinct limit-exceeded error, while a
stream of at most 1000 documents ending cleanly decodes fully without
error. -/
theorem getNoteJSON_object_limit {T : Type} (g : GitExec) (jd : JsonDecoder T)
    (ns sha content : String) (tr : Trace) (docs : List T) (fail : Option (Nat × String))
    (hsha : sha ≠ "")
    (hget : GetNote g ns sha = (.ok content, tr))
    (hne : goTrim content ≠ "")
    (hjd : jd content = ⟨docs, fail⟩) :
    (MaxJSONObjects < docs.length →
      GetNoteJSON g jd ns sha = ((docs.take MaxJSONObjects, some (.tooMany MaxJSONObjects)), tr)) ∧
    (docs.length ≤ MaxJSONObjects → fail = none →
      GetNoteJSON g jd ns sha = ((docs, none), tr)) := by
  constructor
  · intro hgt
    unfold GetNoteJSON
    rw [if_neg hsha, hget]
    simp only [if_neg hne, hjd]
    rw [decodeLoop_over content fail docs [] 0 rfl (by omega) (by simpa using hgt)]
    simp
  · intro hle hfail
    unfold GetNoteJSON
    rw [if_neg hsha, hget]
    simp only [if_neg hne, hjd, hfail]
    rw [decodeLoop_clean content docs [] 0 rfl (by simpa using hle)]
    simp

/-- Decoder oracle for the C7 witness: the concrete content decodes to
1001 documents ending cleanly. -/
def jdManyDocs : JsonDecoder Nat := fun c =>
  if c = "docs" then ⟨List.replicate 1001 0, none⟩ else ⟨[], none⟩

/-- Backend oracle for the C7 witness. -/
def gManyDocs : GitExec := fun args =>
  if args = ["notes", "--ref", "refs/notes/ns", "show", "abc1"] then ⟨"docs", "", 0⟩
  else ⟨"", "", 0⟩

/-- Witness for C7 at a concrete input: 1001 concatenated documents yield
the first 1000 plus the limit error. -/
theorem getNoteJSON_object_limit_witness :
    MaxJSONObjects < (List.replicate 1001 (0 : Nat)).length ∧
    GetNoteJSON gManyDocs jdManyDocs "ns" "abc1" =
      (((List.replicate 1001 (0 : Nat)).take MaxJSONObjects, some (.tooMany MaxJSONObjects)),
        [["rev-parse", "--verify", "abc1"], ["notes", "--ref", "refs/notes/ns", "show", "abc1"]]) :=
  ⟨by simp only [List.length_replicate]; decide,
    (getNoteJSON_object_limit gManyDocs jdManyDocs "ns" "abc1" "docs"
      [["rev-parse", "--verify", "abc1"], ["notes", "--ref", "refs/notes/ns", "show", "abc1"]]
      (List.replicate 1001 0) none (by decide) (by decide) (by decide) rfl).1
      (by simp only [List.length_replicate]; decide)⟩

/- ---------------------------------------------------------------------
Claim C9: encode-then-decode round trip.
--------------------------------------------------------------------- -/

/-- Claim C9: for a JSON-representable value v (marshal succeeds, the
serialization fits the note-size bound and is not whitespace-only, and
the decoder inverts it to the single document v), writing with
SetNoteJSON and reading back with GetNoteJSON on the same namespace and
(non-empty, validated) ref round-trips to the one-element sequence [v]
with no error, given a backend whose read returns the stored content. -/
theorem setThenGetJSON_roundtrip {T : Type} (g₁ g₂ : GitExec) (jd : JsonDecoder T)
    (marshal : T → Option String) (ns sha s : String) (v : T)
    (hsha : sha ≠ "")
    (hm : marshal v = some s)
    (hsize : goLen s ≤ MaxNoteSize)
    (hsafe : isSafeRevisionSpec sha = true)
    (hver1 : (g₁ ["rev-parse", "--verify", sha]).exitCode = 0)
    (hadd : (g₁ ["notes", "--ref", formatNamespaceRef ns, "add", "-f", "-m", s, sha]).exitCode = 0)
    (hver2 : (g₂ ["rev-parse", "--verify", sha]).exitCode = 0)
    (hshow : (g₂ ["notes", "--ref", formatNamespaceRef ns, "show", sha]).exitCode = 0)
    (hread : goTrim (g₂ ["notes", "--ref", formatNamespaceRef ns, "show", sha]).stdout = s)
    (hnws : goTrim s ≠ "")
    (hjd : jd s = ⟨[v], none⟩) :
    (SetNoteJSON g₁ marshal ns sha v).1 = none ∧
    (GetNoteJSON g₂ jd ns sha).1 = ([v], none) := by
  constructor
  · unfold SetNoteJSON SetNote validateCommitSHA
    rw [if_neg hsha, hm]
    simp [hsafe, hsha, execGit, hver1, hadd, Nat.not_lt.mpr hsize]
  · have hget : GetNote g₂ ns sha = (.ok s,
        [["rev-parse", "--verify", sha], ["notes", "--ref", formatNamespaceRef ns, "show", sha]]) := by
      unfold GetNote validateCommitSHA
      simp [hsafe, hsha, execGit, hver2, hshow, hread]
    unfold GetNoteJSON
    rw [if_neg hsha, hget]
    simp only [if_neg hnws, hjd]
    rw [decodeLoop_clean s [v] [] 0 rfl (by simp [MaxJSONObjects])]
    simp

/-- Marshal oracle for the C9 witness: decimal rendering. -/
def marshalNat : Nat → Option String := fun n => some (toString n)

/-- Decoder oracle for the C9 witness: "7" decodes back to the single
document 7. -/
def jdSeven : JsonDecoder Nat := fun c =>
  if c = "7" then ⟨[7], none⟩ else ⟨[], none⟩

/-- Backend oracle for the C9 witness: the note read returns the stored
serialization of 7. -/
def gSeven : GitExec := fun args =>
  if args = ["notes", "--ref", "refs/notes/ns", "show", "abc1"] then ⟨"7", "", 0⟩
  else ⟨"", "", 0⟩

/-- Witness for C9 at a concrete input: storing 7 and reading it back
yields exactly [7] with no error. -/
theorem setThenGetJSON_roundtrip_witness :
    marshalNat 7 = some "7" ∧
    (SetNoteJSON gSeven marshalNat "ns" "abc1" 7).1 = none ∧
    (GetNoteJSON gSeven jdSeven "ns" "abc1").1 = ([7], none) := by
  have h := setThenGetJSON_roundtrip gSeven gSeven jdSeven marshalNat "ns" "abc1" "7" 7
    (by decide) (by decide) (by decide) (by decide) rfl (by decide) rfl (by decide)
    (by decide) (by decide) rfl
  exact ⟨by decide, h.1, h.2⟩

/- ---------------------------------------------------------------------
Claim C5: GetNotesBulk lemmas.
--------------------------------------------------------------------- -/

/-- The validation outcome of one sha. -/
def vErr (g : GitExec) (k : String) : Option NotesError :=
  (validateCommitSHA g k).1

/-- The per-key value the final results map must hold. -/
def expectedRes (g : GitExec) (ns k : String) : Option String :=
  match vErr g k with
  | some _ => none
  | none =>
    match (GetNote g ns k).1 with
    | .ok v => some v
    | .error _ => none

/-- The per-key value the final error map must hold. -/
def expectedErr (g : GitExec) (ns k : String) : Option NotesError :=
  match vErr g k with
  | some e => some e
  | none =>
    match (GetNote g ns k).1 with
    | .ok _ => none
    | .error e => some e

/-- GetNote validates first, so a sha failing validation fails GetNote
with the same error. -/
lemma getNote_of_vErr_some (g : GitExec) (ns k : String) (e : NotesError)
    (h : vErr g k = some e) : (GetNote g ns k).1 = .error e := by
  unfold GetNote
  unfold vErr at h
  rcases hv : validateCommitSHA g k with ⟨o, tr⟩
  rw [hv] at h
  simp at h
  subst h
  rfl

/-- One-step unfolding of the validation pass. -/
lemma bulkValidate_cons (g : GitExec) (s : String) (rest : List String)
    (m : String → Option NotesError) :
    bulkValidate g (s :: rest) m =
      match (validateCommitSHA g s).1 with
      | some e => bulkValidate g rest (mapPut m s e)
      | none => bulkValidate g rest m := rfl

/-- Pointwise value of the validation pass. -/
lemma bulkValidate_lookup (g : GitExec) :
    ∀ (l : List String) (m : String → Option NotesError) (k : String),
      bulkValidate g l m k =
        if k ∈ l ∧ (vErr g k).isSome then vErr g k else m k := by
  intro l
  induction l with
  | nil => intro m k; simp [bulkValidate]
  | cons s rest ih =>
    intro m k
    rw [bulkValidate_cons]
    cases hv : (validateCommitSHA g s).1 with
    | none =>
      dsimp only
      rw [ih]
      by_cases hks : k = s
      · subst hks
        have : vErr g k = none := hv
        simp [this]
      · simp [List.mem_cons, hks]
    | some e =>
      dsimp only
      rw [ih]
      by_cases hks : k = s
      · subst hks
        have hvk : vErr g k = some e := hv
        by_cases hmem : k ∈ rest ∧ (vErr g k).isSome
        · simp [hmem, hvk]
        · simp [hmem, mapPut, hvk]
      · simp only [mapPut, if_neg hks, List.mem_cons]
        by_cases hmem : k ∈ rest ∧ (vErr g k).isSome
        · simp [hmem]
        · have : ¬ ((k = s ∨ k ∈ rest) ∧ (vErr g k).isSome) := by
            rintro ⟨h1 | h1, h2⟩
            · exact hks h1
            · exact hmem ⟨h1, h2⟩
          simp only [if_neg hmem, if_neg this]

/-- One-step unfolding of the dispatch pass. -/
lemma bulkDispatch_cons (g : GitExec) (ns s : String) (rest : List String) (st : BulkState) :
    bulkDispatch g ns (s :: rest) st =
      if (st.errors s).isSome then bulkDispatch g ns rest st
      else
        match (GetNote g ns s).1 with
        | .ok note => bulkDispatch g ns rest
            { st with results := mapPut st.results s note, dispatched := st.dispatched ++ [s] }
        | .error e => bulkDispatch g ns rest
            { st with errors := mapPut st.errors s e, dispatched := st.dispatched ++ [s] } := rfl

/-- Dispatch never changes the maps at keys outside the dispatched list. -/
lemma bulkDispatch_other (g : GitExec) (ns : String) :
    ∀ (l : List String) (st : BulkState) (k : String), k ∉ l →
      (bulkDispatch g ns l st).results k = st.results k ∧
      (bulkDispatch g ns l st).errors k = st.errors k := by
  intro l
  induction l with
  | nil => intro st k _; exact ⟨rfl, rfl⟩
  | cons s rest ih =>
    intro st k hk
    have hks : k ≠ s := fun h => hk (by simp [h])
    have hkr : k ∉ rest := fun h => hk (by simp [h])
    rw [bulkDispatch_cons]
    by_cases hskip : (st.errors s).isSome
    · rw [if_pos hskip]
      exact ih st k hkr
    · rw [if_neg hskip]
      cases hgn : (GetNote g ns s).1 with
      | ok note =>
        dsimp only
        rcases ih _ k hkr with ⟨h1, h2⟩
        rw [h1, h2]
        exact ⟨by simp [mapPut, hks], rfl⟩
      | error e =>
        dsimp only
        rcases ih _ k hkr with ⟨h1, h2⟩
        rw [h1, h2]
        exact ⟨rfl, by simp [mapPut, hks]⟩

/-- Dispatch only adds error entries, never clears them. -/
lemma bulkDispatch_errors_mono (g : GitExec) (ns : String) :
    ∀ (l : List String) (st : BulkState) (k : String), (st.errors k).isSome →
      ((bulkDispatch g ns l st).errors k).isSome := by
  intro l
  induction l with
  | nil => intro st k h; exact h
  | cons s rest ih =>
    intro st k h
    rw [bulkDispatch_cons]
    by_cases hskip : (st.errors s).isSome
    · rw [if_pos hskip]; exact ih st k h
    · rw [if_neg hskip]
      cases hgn : (GetNote g ns s).1 with
      | ok note => dsimp only; exact ih _ k h
      | error e =>
        dsimp only
        apply ih
        dsimp only
        by_cases hks : k = s
        · simp [mapPut, hks]
        · simpa [mapPut, hks] using h

/-- A key already carrying an error and not yet dispatched is never
dispatched later. -/
lemma bulkDispatch_not_dispatched (g : GitExec) (ns : String) :
    ∀ (l : List String) (st : BulkState) (k : String),
      (st.errors k).isSome → k ∉ st.dispatched →
      k ∉ (bulkDispatch g ns l st).dispatched := by
  intro l
  induction l with
  | nil => intro st k _ h; exact h
  | cons s rest ih =>
    intro st k herr hdisp
    rw [bulkDispatch_cons]
    by_cases hskip : (st.errors s).isSome
    · rw [if_pos hskip]; exact ih st k herr hdisp
    · rw [if_neg hskip]
      have hks : k ≠ s := by
        intro h
        subst h
        exact hskip herr
      cases hgn : (GetNote g ns s).1 with
      | ok note =>
        dsimp only
        exact ih _ k herr (by simp [hdisp, hks])
      | error e =>
        dsimp only
        exact ih _ k (by simpa [mapPut, hks] using herr) (by simp [hdisp, hks])

/-- The per-key completion predicate: the maps hold their final values. -/
def bulkDone (g : GitExec) (ns : String) (st : BulkState) (k : String) : Prop :=
  st.errors k = expectedErr g ns k ∧ st.results k = expectedRes g ns k

/-- Processing a list containing k completes k, starting from either an
untouched key or an already completed one. -/
lemma bulkDispatch_completes (g : GitExec) (ns : String) :
    ∀ (l : List String) (st : BulkState) (k : String), k ∈ l →
      ((st.errors k = none ∧ st.results k = none) ∨ bulkDone g ns st k) →
      bulkDone g ns (bulkDispatch g ns l st) k := by
  intro l
  induction l with
  | nil => intro st k h; simp at h
  | cons s rest ih =>
    intro st k hmem hinv
    have hfinish : ∀ st' : BulkState, bulkDone g ns st' k →
        bulkDone g ns (bulkDispatch g ns rest st') k := by
      intro st' hdone
      by_cases hkr : k ∈ rest
      · exact ih st' k hkr (Or.inr hdone)
      · rcases bulkDispatch_other g ns rest st' k hkr with ⟨h1, h2⟩
        exact ⟨h2.trans hdone.1, h1.trans hdone.2⟩
    by_cases hks : k = s
    · subst hks
      rw [bulkDispatch_cons]
      by_cases hskip : (st.errors k).isSome
      · rw [if_pos hskip]
        rcases hinv with ⟨h1, _⟩ | hdone
        · rw [h1] at hskip; simp at hskip
        · exact hfinish st hdone
      · rw [if_neg hskip]
        have herrnone : st.errors k = none := Option.not_isSome_iff_eq_none.mp hskip
        cases hgn : (GetNote g ns k).1 with
        | ok note =>
          dsimp only
          have hv : vErr g k = none := by
            cases hv : vErr g k with
            | none => rfl
            | some e' =>
              rw [getNote_of_vErr_some g ns k e' hv] at hgn
              cases hgn
          apply hfinish
          refine ⟨?_, ?_⟩
          · show st.errors k = expectedErr g ns k
            rw [herrnone, expectedErr, hv, hgn]
          · show mapPut st.results k note k = expectedRes g ns k
            rw [expectedRes, hv, hgn]
            simp [mapPut]
        | error e =>
          dsimp only
          have hresnone : st.results k = none := by
            rcases hinv with ⟨_, h2⟩ | ⟨h1, _⟩
            · exact h2
            · rw [herrnone, expectedErr] at h1
              cases hv : vErr g k with
              | none => rw [hv, hgn] at h1; cases h1
              | some e' => rw [hv] at h1; cases h1
          apply hfinish
          refine ⟨?_, ?_⟩
          · show mapPut st.errors k e k = expectedErr g ns k
            rw [expectedErr]
            cases hv : vErr g k with
            | none =>
              rw [hgn]
              simp [mapPut]
            | some e' =>
              have hco := getNote_of_vErr_some g ns k e' hv
              rw [hco] at hgn
              injection hgn with he
              subst he
              simp [mapPut]
          · show st.results k = expectedRes g ns k
            rw [hresnone, expectedRes]
            cases hv : vErr g k with
            | none => rw [hgn]
            | some e' => rfl
    · have hkr : k ∈ rest := by
        rcases List.mem_cons.mp hmem with h | h
        · exact absurd h hks
        · exact h
      rw [bulkDispatch_cons]
      by_cases hskip : (st.errors s).isSome
      · rw [if_pos hskip]
        exact ih st k hkr hinv
      · rw [if_neg hskip]
        cases hgn : (GetNote g ns s).1 with
        | ok note =>
          dsimp only
          apply ih _ k hkr
          rcases hinv with ⟨h1, h2⟩ | ⟨h1, h2⟩
          · exact Or.inl ⟨h1, by simpa [mapPut, hks] using h2⟩
          · exact Or.inr ⟨h1, by simpa [mapPut, hks] using h2⟩
        | error e =>
          dsimp only
          apply ih _ k hkr
          rcases hinv with ⟨h1, h2⟩ | ⟨h1, h2⟩
          · exact Or.inl ⟨by simpa [mapPut, hks] using h1, h2⟩
          · exact Or.inr ⟨by simpa [mapPut, hks] using h1, h2⟩

/-- Claim C5: GetNotesBulk returns no overall error (its result type is
only the two maps plus bookkeeping), and the per-ref outcomes partition:
every distinct input ref appears in exactly one of the two maps (the
isSome flags of the two lookups are complementary), refs outside the
input appear in neither, refs failing up-front validation carry their
validation error and are excluded from backend dispatch, and every
validated ref is recorded under its own key with its own GetNote outcome,
one ref failing never disturbing the others. -/
theorem getNotesBulk_partition (g : GitExec) (ns : String) (shas : List String) :
    (∀ k, k ∈ shas →
      ((GetNotesBulk g ns shas).results k).isSome = (!((GetNotesBulk g ns shas).errors k).isSome)) ∧
    (∀ k, k ∉ shas →
      (GetNotesBulk g ns shas).results k = none ∧ (GetNotesBulk g ns shas).errors k = none) ∧
    (∀ k e, k ∈ shas → vErr g k = some e →
      (GetNotesBulk g ns shas).errors k = some e ∧ k ∉ (GetNotesBulk g ns shas).dispatched) ∧
    (∀ k v, k ∈ shas → vErr g k = none → (GetNote g ns k).1 = .ok v →
      (GetNotesBulk g ns shas).results k = some v ∧ (GetNotesBulk g ns shas).errors k = none) ∧
    (∀ k e, k ∈ shas → vErr g k = none → (GetNote g ns k).1 = .error e →
      (GetNotesBulk g ns shas).errors k = some e ∧ (GetNotesBulk g ns shas).results k = none) := by
  have hinit :
      (GetNotesBulk g ns shas) =
        bulkDispatch g ns shas
          ⟨fun _ => none, bulkValidate g shas (fun _ => none), []⟩ := rfl
  have herr0 : ∀ k : String, (bulkValidate g shas (fun _ => none)) k =
      if k ∈ shas ∧ (vErr g k).isSome then vErr g k else none := by
    intro k
    rw [bulkValidate_lookup]
  have hdone : ∀ k, k ∈ shas → bulkDone g ns (GetNotesBulk g ns shas) k := by
    intro k hk
    rw [hinit]
    apply bulkDispatch_completes g ns shas _ k hk
    cases hv : vErr g k with
    | none =>
      left
      refine ⟨?_, rfl⟩
      show bulkValidate g shas (fun _ => none) k = none
      rw [herr0 k]
      simp [hv]
    | some e =>
      right
      refine ⟨?_, ?_⟩
      · show bulkValidate g shas (fun _ => none) k = expectedErr g ns k
        rw [herr0 k, expectedErr, hv]
        simp [hk, hv]
      · show (fun _ => none : String → Option String) k = expectedRes g ns k
        rw [expectedRes, hv]
  refine ⟨?_, ?_, ?_, ?_, ?_⟩
  · intro k hk
    rcases hdone k hk with ⟨h1, h2⟩
    rw [h1, h2, expectedErr, expectedRes]
    cases hv : vErr g k with
    | some e => rfl
    | none =>
      cases hgn : (GetNote g ns k).1 with
      | ok v => rfl
      | error e => rfl
  · intro k hk
    rw [hinit]
    rcases bulkDispatch_other g ns shas _ k hk with ⟨h1, h2⟩
    refine ⟨h1, ?_⟩
    rw [h2]
    show bulkValidate g shas (fun _ => none) k = none
    rw [herr0 k]
    simp [hk]
  · intro k e hk hv
    rcases hdone k hk with ⟨h1, _⟩
    refine ⟨?_, ?_⟩
    · rw [h1, expectedErr, hv]
    · rw [hinit]
      apply bulkDispatch_not_dispatched
      · show (bulkValidate g shas (fun _ => none) k).isSome
        rw [herr0 k]
        simp [hk, hv]
      · simp
  · intro k v hk hv hgn
    rcases hdone k hk with ⟨h1, h2⟩
    exact ⟨by rw [h2, expectedRes, hv, hgn], by rw [h1, expectedErr, hv, hgn]⟩
  · intro k e hk hv hgn
    rcases hdone k hk with ⟨h1, h2⟩
    exact ⟨by rw [h1, expectedErr, hv, hgn], by rw [h2, expectedRes, hv, hgn]⟩

/-- Backend oracle for the C5 witness: abc1 has a note, beef2 resolves
but has no note, and every rev-parse succeeds. -/
def gBulk : GitExec := fun args =>
  if args = ["notes", "--ref", "refs/notes/ns", "show", "abc1"] then ⟨"hello", "", 0⟩
  else if args = ["notes", "--ref", "refs/notes/ns", "show", "beef2"] then
    ⟨"", "error: no notes found", 1⟩
  else ⟨"", "", 0⟩

set_option maxRecDepth 40000 in
/-- Witness for C5 over a mixed input: the valid ref with a note lands in
the results map, the flag-like ref fails validation into the error map
without being dispatched, and the noteless ref lands in the error map
with its own typed error. -/
theorem getNotesBulk_partition_witness :
    ("abc1" ∈ ["abc1", "-bad", "beef2"]) ∧
    vErr gBulk "abc1" = none ∧
    (GetNote gBulk "ns" "abc1").1 = .ok "hello" ∧
    vErr gBulk "-bad" = some (.invalidCommitSha "-bad") ∧
    (GetNotesBulk gBulk "ns" ["abc1", "-bad", "beef2"]).results "abc1" = some "hello" ∧
    ((GetNotesBulk gBulk "ns" ["abc1", "-bad", "beef2"]).errors "-bad" =
        some (.invalidCommitSha "-bad") ∧
      "-bad" ∉ (GetNotesBulk gBulk "ns" ["abc1", "-bad", "beef2"]).dispatched) ∧
    (GetNotesBulk gBulk "ns" ["abc1", "-bad", "beef2"]).errors "beef2" =
      some (.noteNotFound "ns" "beef2") := by
  have h := getNotesBulk_partition gBulk "ns" ["abc1", "-bad", "beef2"]
  exact ⟨by decide, by decide, by decide, by decide,
    (h.2.2.2.1 "abc1" "hello" (by decide) (by decide) (by decide)).1,
    h.2.2.1 "-bad" (.invalidCommitSha "-bad") (by decide) (by decide),
    (h.2.2.2.2 "beef2" (.noteNotFound "ns" "beef2") (by decide) (by decide) (by decide)).1⟩

/- ---------------------------------------------------------------------
Claim C8: GetNoteList.
--------------------------------------------------------------------- -/

instance : IsTotal CommitInfo tsDesc := ⟨fun a b => le_total b.ts a.ts⟩

instance : IsTrans CommitInfo tsDesc := ⟨fun _ _ _ hab hbc => hbc.trans hab⟩

/-- The wrapping message built by execGit for exit code 1 contains the
text "exit code 1". -/
lemma execMsg_has_exitCode1 (a0 stderr : String) :
    strContains ("git " ++ a0 ++ " failed with exit code " ++ toString (1 : Nat)
      ++ ": exit status " ++ toString (1 : Nat) ++ "; stderr: " ++ stderr)
      "exit code 1" = true := by
  have h1 : strContains (" failed with exit code " ++ toString (1 : Nat)) "exit code 1" = true := by
    decide
  have h2 := strContains_left ("git " ++ a0) _ _ h1
  rw [← String.append_assoc] at h2
  have h3 := strContains_right _ ": exit status " _ h2
  have h4 := strContains_right _ (toString (1 : Nat)) _ h3
  have h5 := strContains_right _ "; stderr: " _ h4
  have h6 := strContains_right _ stderr _ h5
  exact h6

/-- No keys can be extracted from empty list output. -/
lemma listKeys_empty : listKeys "" = [] := rfl

/-- Claim C8: on a successful list invocation with at least one noted
key, GetNoteList issues exactly one batched timestamp query covering all
keys (the trace is the list call followed by one show call) and returns a
permutation of the listed keys ordered by descending commit timestamp;
a list invocation failing with exit code 1 (no notes ref yet), or
producing empty output, yields the empty (non-error) list. -/
theorem getNoteList_spec (g : GitExec) (ns : String) :
    (∀ entries : List CommitInfo,
      (g ["notes", "--ref", formatNamespaceRef ns, "list"]).exitCode = 0 →
      listKeys (goTrim (g ["notes", "--ref", formatNamespaceRef ns, "list"]).stdout) ≠ [] →
      (g (["show", "-s", "--format=%H %ct"] ++
        listKeys (goTrim (g ["notes", "--ref", formatNamespaceRef ns, "list"]).stdout))).exitCode = 0 →
      parseTsEntries (goLines (goTrim (g (["show", "-s", "--format=%H %ct"] ++
        listKeys (goTrim (g ["notes", "--ref", formatNamespaceRef ns, "list"]).stdout))).stdout)) =
        .ok entries →
      List.Perm (entries.map (·.sha))
        (listKeys (goTrim (g ["notes", "--ref", formatNamespaceRef ns, "list"]).stdout)) →
      ∃ sorted : List CommitInfo,
        GetNoteList g ns = (.ok (sorted.map (·.sha)),
          [["notes", "--ref", formatNamespaceRef ns, "list"],
           ["show", "-s", "--format=%H %ct"] ++
             listKeys (goTrim (g ["notes", "--ref", formatNamespaceRef ns, "list"]).stdout)]) ∧
        List.Perm sorted entries ∧
        List.Perm (sorted.map (·.sha))
          (listKeys (goTrim (g ["notes", "--ref", formatNamespaceRef ns, "list"]).stdout)) ∧
        sorted.Pairwise tsDesc) ∧
    ((g ["notes", "--ref", formatNamespaceRef ns, "list"]).exitCode = 1 →
      GetNoteList g ns = (.ok [], [["notes", "--ref", formatNamespaceRef ns, "list"]])) ∧
    ((g ["notes", "--ref", formatNamespaceRef ns, "list"]).exitCode = 0 →
      goTrim (g ["notes", "--ref", formatNamespaceRef ns, "list"]).stdout = "" →
      GetNoteList g ns = (.ok [], [["notes", "--ref", formatNamespaceRef ns, "list"]])) := by
  refine ⟨?_, ?_, ?_⟩
  · intro entries hList hkeys hShow hparse hperm
    simp only [List.cons_append, List.nil_append] at hShow hparse
    have hne : goTrim (g ["notes", "--ref", formatNamespaceRef ns, "list"]).stdout ≠ "" := by
      intro h
      apply hkeys
      rw [h, listKeys_empty]
    refine ⟨List.insertionSort tsDesc entries, ?_, List.perm_insertionSort tsDesc entries, ?_, ?_⟩
    · unfold GetNoteList
      norm_num [execGit, hList, hShow, hne, hkeys, hparse]
    · exact ((List.perm_insertionSort tsDesc entries).map (·.sha)).trans hperm
    · exact List.sorted_insertionSort tsDesc entries
  · intro hList
    unfold GetNoteList
    simp only [execGit, hList]
    norm_num
    rw [execMsg_has_exitCode1]
    simp
  · intro hList hempty
    unfold GetNoteList
    simp only [execGit, hList]
    norm_num [hempty]

/-- Backend oracle for the C8 witness: three noted commits with strictly
increasing timestamps, the batched query answering all three at once. -/
def gList : GitExec := fun args =>
  if args = ["notes", "--ref", "refs/notes/ns", "list"] then
    ⟨"n1 c1\nn2 c2\nn3 c3", "", 0⟩
  else if args = ["show", "-s", "--format=%H %ct", "c1", "c2", "c3"] then
    ⟨"c1 1\nc2 2\nc3 3", "", 0⟩
  else ⟨"", "", 0⟩

set_option maxRecDepth 40000 in
/-- Witness for C8: three commits with timestamps 1 < 2 < 3 come back in
one batched query as a newest-first permutation of the listed keys. -/
theorem getNoteList_spec_witness :
    parseTsEntries (goLines (goTrim (gList (["show", "-s", "--format=%H %ct"] ++
        listKeys (goTrim (gList ["notes", "--ref", formatNamespaceRef "ns", "list"]).stdout))).stdout)) =
      .ok [⟨"c1", 1⟩, ⟨"c2", 2⟩, ⟨"c3", 3⟩] ∧
    ∃ sorted : List CommitInfo,
      GetNoteList gList "ns" = (.ok (sorted.map (·.sha)),
        [["notes", "--ref", formatNamespaceRef "ns", "list"],
         ["show", "-s", "--format=%H %ct"] ++
           listKeys (goTrim (gList ["notes", "--ref", formatNamespaceRef "ns", "list"]).stdout)]) ∧
      List.Perm sorted [⟨"c1", 1⟩, ⟨"c2", 2⟩, ⟨"c3", 3⟩] ∧
      List.Perm (sorted.map (·.sha))
        (listKeys (goTrim (gList ["notes", "--ref", formatNamespaceRef "ns", "list"]).stdout)) ∧
      sorted.Pairwise tsDesc :=
  ⟨by decide,
    (getNoteList_spec gList "ns").1 [⟨"c1", 1⟩, ⟨"c2", 2⟩, ⟨"c3", 3⟩]
      (by decide) (by decide) (by decide) (by decide) (by decide)⟩

end GitNotes
